import Mathlib

/-!
Verification of the GROZY telemetry and admission-control subsystem.

This file shallowly embeds the metrics aggregator of
`grozy_observability.py` (class `AgentMetrics`) and the per-client rate
limiter of `security_config.py` (`check_rate_limit`), and proves the
spec's testable properties about them.

Modelling conventions:
* Python floats (latencies, precision scores, similarities) are modelled
  as exact rationals `ℚ`; every arithmetic step the code performs on them
  (sums, a single final division of small integer counts) is exact or
  correctly rounded, and no claim in scope depends on float rounding.
  The display-only `round(x, 3)` re-quantisation that `get_summary`
  applies to derived averages/percentiles before putting them in the
  returned dict is omitted: the summary fields below hold the values as
  computed (the claims cite the computation, lines 253-262).
* ISO `timestamp` strings produced by `datetime.now().isoformat()` are
  omitted from stored entries: no modelled operation ever reads them.
* Rate-limiter timestamps (`datetime.now()`) are modelled as integers
  (seconds); only order and subtraction of a window length are used.
* `psutil` resource sampling can raise (the `try/except` in
  `_record_resource_usage`); a request event therefore carries
  `Option ResourceSample`: `none` models the exception path in which
  nothing is appended.
-/

namespace Grozy

/-- An entry of `latency_history`: `{'timestamp', 'latency', 'success'}`
(timestamp omitted, see header). -/
structure LatencyEntry where
  latency : ℚ
  success : Bool
deriving DecidableEq

/-- An entry of `errors`: `{'timestamp', 'error', 'tools_used', 'request'}`
(timestamp omitted). -/
structure ErrorEntry where
  error : String
  tools_used : List String
  request : String
deriving DecidableEq

/-- An entry of `resource_usage`:
`{'timestamp', 'cpu_percent', 'memory_percent', 'memory_used_mb'}`
(timestamp omitted). -/
structure ResourceSample where
  cpu_percent : ℚ
  memory_percent : ℚ
  memory_used_mb : ℚ
deriving DecidableEq

/-- An entry of `precision_scores`:
`{'timestamp', 'precision', 'expected', 'actual'}` (timestamp omitted). -/
structure PrecisionEntry where
  precision : ℚ
  expected : List String
  actual : List String
deriving DecidableEq

/-- An entry of `execution_traces`:
`{'timestamp', 'request', 'response', 'tools_used', 'latency', 'success'}`
(timestamp omitted). -/
structure TraceEntry where
  request : String
  response : String
  tools_used : List String
  latency : ℚ
  success : Bool
deriving DecidableEq

/-- An entry of `consistency_checks`:
`{'timestamp', 'query', 'response', 'similar_previous'}`
(timestamp omitted). -/
structure ConsistencyEntry where
  query : String
  response : String
  similar_previous : ℕ
deriving DecidableEq

/-- The `self.metrics` dictionary initialised in `AgentMetrics.__init__`.
`tool_calls` is the `defaultdict(int)` as a total function. -/
structure MetricsState where
  total_requests : ℕ
  successful_requests : ℕ
  failed_requests : ℕ
  total_latency : ℚ
  tool_calls : String → ℕ
  errors : List ErrorEntry
  latency_history : List LatencyEntry
  precision_scores : List PrecisionEntry
  resource_usage : List ResourceSample
  execution_traces : List TraceEntry
  consistency_checks : List ConsistencyEntry

/-- The freshly initialised metrics state (`AgentMetrics.__init__`). -/
def initState : MetricsState where
  total_requests := 0
  successful_requests := 0
  failed_requests := 0
  total_latency := 0
  tool_calls := fun _ => 0
  errors := []
  latency_history := []
  precision_scores := []
  resource_usage := []
  execution_traces := []
  consistency_checks := []

/-- Python slicing `l[-cap:]` guarded by `if len(l) > cap`, the trimming
idiom used for every bounded history in `AgentMetrics`. -/
def trimTo (cap : ℕ) (l : List α) : List α :=
  if cap < l.length then l.drop (l.length - cap) else l

/-- Python slicing `l[-n:]` (whole list when `len(l) ≤ n`), used for the
display views in `get_summary`. -/
def pyTail (n : ℕ) (l : List α) : List α :=
  l.drop (l.length - n)

/-- Python slicing `s[:n]` on a string (`request_text[:200]` etc.). -/
def pyTake (n : ℕ) (s : String) : String :=
  ⟨s.data.take n⟩

/-- Python `str.lower()`: the character-wise lower-case mapping. -/
def pyLower (s : String) : String :=
  ⟨s.data.map Char.toLower⟩

/-- Python `set(s.split())`: the set of maximal non-whitespace runs of
`s` (`str.split()` with no argument splits on whitespace runs and drops
empty pieces). -/
def pyWords (s : String) : Finset String :=
  (((s.data.splitOnP fun c => c.isWhitespace).filter fun w => w ≠ []).map
    fun w => (⟨w⟩ : String)).toFinset

/-- The completed-request event consumed by `record_request`
(argument list of `AgentMetrics.record_request`; `resource` is the
sample taken by `_record_resource_usage`, `none` when `psutil` raises). -/
structure RequestEvent where
  success : Bool
  latency : ℚ
  tools_used : List String
  error : String
  request_text : String
  resource : Option ResourceSample

/-- `AgentMetrics.record_request` (together with the inlined
`_record_resource_usage`): increments the counters, appends the error
record on failure, appends a latency-history entry (trim to 100), tallies
tools, and appends the resource sample when one was obtained (trim to 50). -/
def record_request (s : MetricsState) (ev : RequestEvent) : MetricsState :=
  { s with
    total_requests := s.total_requests + 1
    successful_requests :=
      if ev.success then s.successful_requests + 1 else s.successful_requests
    failed_requests :=
      if ev.success then s.failed_requests else s.failed_requests + 1
    errors :=
      if ev.success then s.errors
      else s.errors ++ [{ error := ev.error, tools_used := ev.tools_used,
                          request := pyTake 200 ev.request_text }]
    total_latency := s.total_latency + ev.latency
    latency_history :=
      trimTo 100 (s.latency_history ++
        [{ latency := ev.latency, success := ev.success }])
    tool_calls :=
      ev.tools_used.foldl
        (fun f tool => fun t => if t = tool then f t + 1 else f t) s.tool_calls
    resource_usage :=
      match ev.resource with
      | none => s.resource_usage
      | some r => trimTo 50 (s.resource_usage ++ [r]) }

/-- `AgentMetrics.record_trace`: appends a truncated trace entry
(trim to 50). -/
def record_trace (s : MetricsState) (request response : String)
    (tools_used : List String) (latency : ℚ) (success : Bool) : MetricsState :=
  { s with
    execution_traces :=
      trimTo 50 (s.execution_traces ++
        [{ request := pyTake 300 request, response := pyTake 500 response,
           tools_used := tools_used, latency := latency, success := success }]) }

/-- `AgentMetrics.calculate_precision`: returns `1.0` immediately when
`expected_tools` is empty (no entry appended); otherwise computes the
set-overlap score `|expected ∩ actual| / |expected ∪ actual|`, appends it
with its inputs to `precision_scores` (trim to 50), and returns it. -/
def calculate_precision (s : MetricsState)
    (expected_tools actual_tools : List String) : ℚ × MetricsState :=
  if expected_tools = [] then (1, s)
  else
    let correct : ℕ := (expected_tools.toFinset ∩ actual_tools.toFinset).card
    let total : ℕ := (expected_tools.toFinset ∪ actual_tools.toFinset).card
    let precision : ℚ := if 0 < total then (correct : ℚ) / total else 0
    (precision,
      { s with
        precision_scores :=
          trimTo 50 (s.precision_scores ++
            [{ precision := precision, expected := expected_tools,
               actual := actual_tools }]) })

/-- `AgentMetrics._similarity`: word-set Jaccard similarity of two
strings, `0.0` when either word set is empty. -/
def similarity (str1 str2 : String) : ℚ :=
  let words1 := pyWords str1
  let words2 := pyWords str2
  if words1 = ∅ ∨ words2 = ∅ then 0
  else
    let inter : ℕ := (words1 ∩ words2).card
    let uni : ℕ := (words1 ∪ words2).card
    if 0 < uni then (inter : ℚ) / uni else 0

/-- `AgentMetrics.check_consistency`: counts stored entries whose
lower-cased query is `> 0.7`-similar to the lower-cased new query, then
appends `{query[:200], response[:200], similar_previous}` (trim to 30). -/
def check_consistency (s : MetricsState) (query response : String) :
    MetricsState :=
  let similar_count :=
    s.consistency_checks.countP fun check =>
      decide ((7 : ℚ)/10 < similarity (pyLower query) (pyLower check.query))
  { s with
    consistency_checks :=
      trimTo 30 (s.consistency_checks ++
        [{ query := pyTake 200 query, response := pyTake 200 response,
           similar_previous := similar_count }]) }

/-- Lines 253-262 of `get_summary`: sort the retained latencies ascending
and index at `int(n*0.95)` / `int(n*0.99)`, falling back to the last
element if the index is out of range.  `int(n*0.95)` and `int(n*0.99)`
(float product, truncated) coincide with `⌊n·95/100⌋` and `⌊n·99/100⌋`
for every reachable history length `n ≤ 100` (checked exhaustively
against IEEE-754 double semantics), so the indices are written with
natural division. -/
def percentiles (latencies : List ℚ) : ℚ × ℚ :=
  if latencies = [] then (0, 0)
  else
    let sorted_latencies := latencies.insertionSort (· ≤ ·)
    let n := sorted_latencies.length
    let p95_idx := n * 95 / 100
    let p99_idx := n * 99 / 100
    let p95 := if p95_idx < n then sorted_latencies.getD p95_idx 0
               else sorted_latencies.getD (n - 1) 0
    let p99 := if p99_idx < n then sorted_latencies.getD p99_idx 0
               else sorted_latencies.getD (n - 1) 0
    (p95, p99)

/-- The fields of the dict returned by `AgentMetrics.get_summary` that the
verified claims are about (percentile values pre-`round(·, 3)`, see the
file header; rate/average percentage fields and `generated_at` omitted). -/
structure Summary where
  total_requests : ℕ
  successful_requests : ℕ
  failed_requests : ℕ
  avg_latency : ℚ
  p95_latency : ℚ
  p99_latency : ℚ
  latency_history : List LatencyEntry
  recent_errors : List ErrorEntry
  error_count : ℕ
  execution_traces : List TraceEntry
  consistency_checks : ℕ

/-- `AgentMetrics.get_summary`. -/
def get_summary (s : MetricsState) : Summary :=
  let p := percentiles (s.latency_history.map fun e => e.latency)
  { total_requests := s.total_requests
    successful_requests := s.successful_requests
    failed_requests := s.failed_requests
    avg_latency :=
      if 0 < s.total_requests then s.total_latency / s.total_requests else 0
    p95_latency := p.1
    p99_latency := p.2
    latency_history := pyTail 30 s.latency_history
    recent_errors := pyTail 10 s.errors
    error_count := s.errors.length
    execution_traces := pyTail 10 s.execution_traces
    consistency_checks := s.consistency_checks.length }

/-- One call to any of the four mutating `AgentMetrics` operations. -/
inductive Op where
  | record (ev : RequestEvent)
  | trace (request response : String) (tools_used : List String)
      (latency : ℚ) (success : Bool)
  | precision (expected actual : List String)
  | consistency (query response : String)

/-- Apply one operation to the metrics state. -/
def step (s : MetricsState) : Op → MetricsState
  | .record ev => record_request s ev
  | .trace req resp tools lat succ => record_trace s req resp tools lat succ
  | .precision e a => (calculate_precision s e a).2
  | .consistency q r => check_consistency s q r

/-- Run a sequence of operations from a state. -/
def runOps (s : MetricsState) (ops : List Op) : MetricsState :=
  ops.foldl step s

/-- Run a sequence of `record_request` calls from a state. -/
def runRecords (s : MetricsState) (evs : List RequestEvent) : MetricsState :=
  evs.foldl record_request s

/-- The capacity bounds the spec states for every bounded history. -/
def boundsInv (s : MetricsState) : Prop :=
  s.latency_history.length ≤ 100 ∧
  s.precision_scores.length ≤ 50 ∧
  s.resource_usage.length ≤ 50 ∧
  s.execution_traces.length ≤ 50 ∧
  s.consistency_checks.length ≤ 30

/-- Result of `check_rate_limit` in `security_config.py`: the returned
pair plus the list left in `rate_limit_storage[ip_address]`. -/
structure RLResult where
  allowed : Bool
  remaining : ℤ
  stored : List ℤ
deriving DecidableEq

/-- `check_rate_limit(security_manager, ip, max_requests, window_seconds)`
for one client.  `stored` is `rate_limit_storage[ip_address]` (created
empty on first sight), `now` the current time.  Faithful detail: after
`security_manager.rate_limit_storage[ip_address] = recent_requests`, the
stored list and `recent_requests` alias the same Python list object, so
the `append(now)` is visible to the `len(recent_requests)` used for
`remaining`; the model therefore computes `remaining` from the list
length after the append. -/
def check_rate_limit (stored : List ℤ) (now : ℤ)
    (max_requests : ℕ := 20) (window_seconds : ℤ := 60) : RLResult :=
  let cutoff : ℤ := now - window_seconds
  let recent_requests := stored.filter fun ts => decide (cutoff < ts)
  if max_requests ≤ recent_requests.length then
    { allowed := false, remaining := 0, stored := recent_requests }
  else
    let updated := recent_requests ++ [now]
    { allowed := true,
      remaining := (max_requests : ℤ) - (updated.length : ℤ) - 1,
      stored := updated }

/-- Run a sequence of `check_rate_limit` calls (default limits
`max_requests = 20`, `window_seconds = 60`) for one client, collecting
the `(allowed, remaining)` outputs and the final stored list. -/
def run_rate_limit (stored : List ℤ) : List ℤ → List (Bool × ℤ) × List ℤ
  | [] => ([], stored)
  | t :: ts =>
    let r := check_rate_limit stored t 20 60
    let rest := run_rate_limit r.stored ts
    ((r.allowed, r.remaining) :: rest.1, rest.2)

/-! ### Helper lemmas about the trimming idiom -/

theorem trimTo_length_le (cap : ℕ) (l : List α) : (trimTo cap l).length ≤ cap := by
  unfold trimTo
  split
  · rw [List.length_drop]; omega
  · omega

theorem trimTo_suffix (cap : ℕ) (l : List α) : trimTo cap l <:+ l := by
  unfold trimTo
  split
  · exact List.drop_suffix _ _
  · exact List.suffix_refl l

theorem getLast?_drop_of_lt {l : List α} {n : ℕ} (h : n < l.length) :
    (l.drop n).getLast? = l.getLast? := by
  rw [List.getLast?_eq_getElem?, List.getLast?_eq_getElem?, List.getElem?_drop,
    List.length_drop]
  congr 1
  omega

theorem trimTo_getLast? (cap : ℕ) (l : List α) (hcap : 0 < cap) :
    (trimTo cap l).getLast? = l.getLast? := by
  unfold trimTo
  split
  · exact getLast?_drop_of_lt (by omega)
  · rfl

theorem trimTo_concat_getLast? (cap : ℕ) (hcap : 0 < cap) (l : List α) (x : α) :
    (trimTo cap (l ++ [x])).getLast? = some x := by
  rw [trimTo_getLast? cap _ hcap]
  exact List.getLast?_concat l

theorem mem_trimTo_concat (cap : ℕ) (hcap : 0 < cap) (l : List α) (x : α) :
    x ∈ trimTo cap (l ++ [x]) := by
  refine List.mem_of_mem_getLast? (a := x) ?_
  rw [trimTo_concat_getLast? cap hcap l x]
  rfl

/-! ### C1: capacity bounds and keep-tail trimming -/

theorem boundsInv_initState : boundsInv initState := by
  simp [boundsInv, initState]

theorem boundsInv_step (s : MetricsState) (op : Op) (h : boundsInv s) :
    boundsInv (step s op) := by
  obtain ⟨h1, h2, h3, h4, h5⟩ := h
  cases op with
  | record ev =>
    refine ⟨trimTo_length_le _ _, h2, ?_, h4, h5⟩
    show (record_request s ev).resource_usage.length ≤ 50
    simp only [record_request]
    cases ev.resource with
    | none => exact h3
    | some r => exact trimTo_length_le _ _
  | trace req resp tools lat succ =>
    exact ⟨h1, h2, h3, trimTo_length_le _ _, h5⟩
  | precision e a =>
    show boundsInv (calculate_precision s e a).2
    unfold calculate_precision
    split
    · exact ⟨h1, h2, h3, h4, h5⟩
    · exact ⟨h1, trimTo_length_le _ _, h3, h4, h5⟩
  | consistency q r =>
    exact ⟨h1, h2, h3, h4, trimTo_length_le _ _⟩

theorem boundsInv_runOps (ops : List Op) :
    ∀ s : MetricsState, boundsInv s → boundsInv (runOps s ops) := by
  induction ops with
  | nil => intro s h; exact h
  | cons op ops ih => intro s h; exact ih _ (boundsInv_step s op h)

/-- C1: after every call in any sequence of `record_request`,
`record_trace`, `calculate_precision` and `check_consistency` calls, the
retained sequences respect their capacities (`latency_history ≤ 100`,
`precision_scores ≤ 50`, `resource_usage ≤ 50`, `execution_traces ≤ 50`,
`consistency_checks ≤ 30`); and every trim (the `trimTo` idiom all five
histories use) keeps a tail of the original list, preserving its most
recently appended element. -/
theorem claim_C1 :
    (∀ ops : List Op, boundsInv (runOps initState ops)) ∧
    (∀ (α : Type) (cap : ℕ) (l : List α),
      trimTo cap l <:+ l ∧
      (0 < cap → (trimTo cap l).getLast? = l.getLast?)) := by
  constructor
  · intro ops
    exact boundsInv_runOps ops initState boundsInv_initState
  · intro α cap l
    exact ⟨trimTo_suffix cap l, fun hcap => trimTo_getLast? cap l hcap⟩

/-- Witness for C1 at concrete inputs: a single recorded request keeps
all bounds, and trimming `[1, 2, 3]` to capacity 2 keeps the tail. -/
theorem claim_C1_witness :
    boundsInv (runOps initState
      [Op.record ⟨true, 1, ["buscar_productos"], "", "hola", none⟩]) ∧
    (trimTo 2 ([1, 2, 3] : List ℕ)).getLast? = some 3 := by
  constructor
  · exact claim_C1.1 [Op.record ⟨true, 1, ["buscar_productos"], "", "hola", none⟩]
  · rw [(claim_C1.2 ℕ 2 [1, 2, 3]).2 (by decide)]
    decide

/-! ### C2: counter arithmetic of record_request -/

theorem record_request_sum (s : MetricsState) (ev : RequestEvent)
    (h : s.total_requests = s.successful_requests + s.failed_requests) :
    (record_request s ev).total_requests =
      (record_request s ev).successful_requests +
        (record_request s ev).failed_requests := by
  simp only [record_request]
  cases ev.success <;> simp <;> omega

theorem record_request_mono (s : MetricsState) (ev : RequestEvent) :
    s.total_requests ≤ (record_request s ev).total_requests ∧
    s.successful_requests ≤ (record_request s ev).successful_requests ∧
    s.failed_requests ≤ (record_request s ev).failed_requests := by
  simp only [record_request]
  cases ev.success <;> simp

theorem runRecords_sum : ∀ (evs : List RequestEvent) (s : MetricsState),
    s.total_requests = s.successful_requests + s.failed_requests →
    (runRecords s evs).total_requests =
      (runRecords s evs).successful_requests +
        (runRecords s evs).failed_requests := by
  intro evs
  induction evs with
  | nil => intro s h; exact h
  | cons ev evs ih => intro s h; exact ih _ (record_request_sum s ev h)

theorem runRecords_mono : ∀ (evs : List RequestEvent) (s : MetricsState),
    s.total_requests ≤ (runRecords s evs).total_requests ∧
    s.successful_requests ≤ (runRecords s evs).successful_requests ∧
    s.failed_requests ≤ (runRecords s evs).failed_requests := by
  intro evs
  induction evs with
  | nil => intro s; exact ⟨le_refl _, le_refl _, le_refl _⟩
  | cons ev evs ih =>
    intro s
    obtain ⟨m1, m2, m3⟩ := record_request_mono s ev
    obtain ⟨i1, i2, i3⟩ := ih (record_request s ev)
    exact ⟨m1.trans i1, m2.trans i2, m3.trans i3⟩

/-- C2: after every sequence of `record_request` calls,
`total_requests = successful_requests + failed_requests`; all three
counters are non-negative; and extending the call sequence never
decreases any of them. -/
theorem claim_C2 (evs : List RequestEvent) :
    ((runRecords initState evs).total_requests =
      (runRecords initState evs).successful_requests +
        (runRecords initState evs).failed_requests) ∧
    (0 ≤ (runRecords initState evs).total_requests ∧
     0 ≤ (runRecords initState evs).successful_requests ∧
     0 ≤ (runRecords initState evs).failed_requests) ∧
    (∀ more : List RequestEvent,
      (runRecords initState evs).total_requests ≤
        (runRecords initState (evs ++ more)).total_requests ∧
      (runRecords initState evs).successful_requests ≤
        (runRecords initState (evs ++ more)).successful_requests ∧
      (runRecords initState evs).failed_requests ≤
        (runRecords initState (evs ++ more)).failed_requests) := by
  refine ⟨runRecords_sum evs initState rfl,
    ⟨Nat.zero_le _, Nat.zero_le _, Nat.zero_le _⟩, ?_⟩
  intro more
  simp only [runRecords, List.foldl_append]
  exact runRecords_mono more (runRecords initState evs)

/-! ### C7: cumulative error count, windowed error display -/

theorem record_request_errors_length (s : MetricsState) (ev : RequestEvent) :
    (record_request s ev).errors.length =
      s.errors.length + (if ev.success then 0 else 1) := by
  simp only [record_request]
  cases ev.success <;> simp

theorem record_request_failed (s : MetricsState) (ev : RequestEvent) :
    (record_request s ev).failed_requests =
      s.failed_requests + (if ev.success then 0 else 1) := by
  simp only [record_request]
  cases ev.success <;> simp

theorem runRecords_errors_count : ∀ (evs : List RequestEvent) (s : MetricsState),
    (runRecords s evs).errors.length =
      s.errors.length + evs.countP (fun ev => !ev.success) ∧
    (runRecords s evs).failed_requests =
      s.failed_requests + evs.countP (fun ev => !ev.success) := by
  intro evs
  induction evs with
  | nil => intro s; simp [runRecords]
  | cons ev evs ih =>
    intro s
    obtain ⟨e1, e2⟩ := ih (record_request s ev)
    have hr : runRecords s (ev :: evs) = runRecords (record_request s ev) evs := rfl
    rw [hr]
    constructor
    · rw [e1, record_request_errors_length, List.countP_cons]
      cases ev.success <;> simp
      omega
    · rw [e2, record_request_failed, List.countP_cons]
      cases ev.success <;> simp
      omega

theorem pyTail_length_le (n : ℕ) (l : List α) : (pyTail n l).length ≤ n := by
  unfold pyTail
  rw [List.length_drop]
  omega

theorem pyTail_suffix (n : ℕ) (l : List α) : pyTail n l <:+ l :=
  List.drop_suffix _ _

/-- C7: after every sequence of `record_request` calls, the summary's
`error_count` equals the cumulative number of failed requests since
initialization (the underlying `errors` list is never trimmed, so it also
equals the `failed_requests` counter), while `recent_errors` is a suffix
of `errors` of length at most 10. -/
theorem claim_C7 (evs : List RequestEvent) :
    (get_summary (runRecords initState evs)).error_count =
      evs.countP (fun ev => !ev.success) ∧
    (get_summary (runRecords initState evs)).error_count =
      (runRecords initState evs).failed_requests ∧
    (get_summary (runRecords initState evs)).recent_errors.length ≤ 10 ∧
    (get_summary (runRecords initState evs)).recent_errors <:+
      (runRecords initState evs).errors := by
  obtain ⟨h1, h2⟩ := runRecords_errors_count evs initState
  refine ⟨?_, ?_, ?_, ?_⟩
  · show (runRecords initState evs).errors.length = _
    rw [h1]
    simp [initState]
  · show (runRecords initState evs).errors.length = _
    rw [h1, h2]
    simp [initState]
  · show (pyTail 10 (runRecords initState evs).errors).length ≤ 10
    exact pyTail_length_le _ _
  · show pyTail 10 (runRecords initState evs).errors <:+ _
    exact pyTail_suffix _ _

/-! ### C5: the precision score -/

theorem calculate_precision_fst (s : MetricsState) (e a : List String) :
    (calculate_precision s e a).1 =
      if e = [] then 1
      else ((e.toFinset ∩ a.toFinset).card : ℚ) /
        ((e.toFinset ∪ a.toFinset).card : ℚ) := by
  unfold calculate_precision
  split
  · rfl
  · rename_i h
    have hne : e.toFinset.Nonempty := by
      rw [List.toFinset_nonempty_iff]
      exact h
    obtain ⟨x, hx⟩ := hne
    have hpos : 0 < (e.toFinset ∪ a.toFinset).card :=
      Finset.card_pos.mpr ⟨x, Finset.mem_union_left _ hx⟩
    simp [hpos]

/-- C5: `calculate_precision` returns 1 when `expected` is empty and
otherwise the set-overlap score
`|set expected ∩ set actual| / |set expected ∪ set actual|`
(the defensive `total > 0` guard never fires for non-empty `expected`);
on `(["a","b"], ["a"])` it returns `1/2`. -/
theorem claim_C5 :
    (∀ (s : MetricsState) (expected actual : List String),
      (calculate_precision s expected actual).1 =
        if expected = [] then 1
        else ((expected.toFinset ∩ actual.toFinset).card : ℚ) /
          ((expected.toFinset ∪ actual.toFinset).card : ℚ)) ∧
    (calculate_precision initState ["a", "b"] ["a"]).1 = 1/2 := by
  refine ⟨calculate_precision_fst, ?_⟩
  rw [calculate_precision_fst]
  have h1 : ((["a", "b"] : List String).toFinset ∩
      (["a"] : List String).toFinset).card = 1 := by decide
  have h2 : ((["a", "b"] : List String).toFinset ∪
      (["a"] : List String).toFinset).card = 2 := by decide
  rw [if_neg (by simp), h1, h2]
  norm_num

/-! ### C6: the side effect of calculate_precision (corrected) -/

/-- Counterexample to C6 as stated: a call with empty `expected_tools`
returns 1.0 through the early `return` and appends nothing to
`precision_scores` (from the fresh state the list stays empty, whereas
the claim demands exactly one appended entry, which would leave a
singleton list). -/
theorem claim_C6_cex :
    (calculate_precision initState [] ["a"]).2.precision_scores = [] ∧
    (calculate_precision initState [] ["a"]).1 = 1 :=
  ⟨rfl, rfl⟩

theorem calculate_precision_scores (s : MetricsState) (e a : List String)
    (h : e ≠ []) :
    (calculate_precision s e a).2.precision_scores =
      trimTo 50 (s.precision_scores ++
        [{ precision := (calculate_precision s e a).1,
           expected := e, actual := a }]) := by
  unfold calculate_precision
  rw [if_neg h]

/-- C6 amended: for every call with NON-EMPTY `expected`, exactly one
entry containing the computed precision together with `expected` and
`actual` is appended to `precision_scores` (then trimmed to the last 50),
and the returned value equals the precision stored in that entry; a call
with empty `expected` returns 1.0 and appends nothing. -/
theorem claim_C6 (s : MetricsState) (expected actual : List String)
    (h : expected ≠ []) :
    (calculate_precision s expected actual).2.precision_scores =
      trimTo 50 (s.precision_scores ++
        [{ precision := (calculate_precision s expected actual).1,
           expected := expected, actual := actual }]) ∧
    (calculate_precision s expected actual).2.precision_scores.getLast? =
      some { precision := (calculate_precision s expected actual).1,
             expected := expected, actual := actual } := by
  refine ⟨calculate_precision_scores s expected actual h, ?_⟩
  rw [calculate_precision_scores s expected actual h]
  exact trimTo_concat_getLast? 50 (by omega) _ _

/-- Witness for C6 at a concrete input. -/
theorem claim_C6_witness :
    (calculate_precision initState ["a"] []).2.precision_scores.getLast? =
      some { precision := (calculate_precision initState ["a"] []).1,
             expected := ["a"], actual := ([] : List String) } :=
  (claim_C6 initState ["a"] [] (by decide)).2

/-! ### C4: latency percentiles -/

theorem percentiles_eq (lat sl : List ℚ) (hne : lat ≠ [])
    (hperm : sl.Perm lat) (hsort : sl.Sorted (· ≤ ·)) :
    percentiles lat =
      (sl.getD (sl.length * 95 / 100) 0, sl.getD (sl.length * 99 / 100) 0) := by
  have hs : sl = lat.insertionSort (· ≤ ·) :=
    List.eq_of_perm_of_sorted (hperm.trans (List.perm_insertionSort _ lat).symm)
      hsort (List.sorted_insertionSort _ lat)
  have hlat : 0 < lat.length := List.length_pos.mpr hne
  have hpos : 0 < sl.length := hperm.length_eq ▸ hlat
  unfold percentiles
  rw [if_neg hne]
  simp only [← hs]
  have h95 : sl.length * 95 / 100 < sl.length := by omega
  have h99 : sl.length * 99 / 100 < sl.length := by omega
  rw [if_pos h95, if_pos h99]

/-- C4: for every non-empty retained latency history, the summary's
`p95_latency` and `p99_latency` equal the ascending-sorted latencies
indexed at `⌊n*0.95⌋` and `⌊n*0.99⌋` clamped to the last index; on the
sample `[1, 2, ..., 100]` they are 96 and 100, and for a single retained
value both percentiles equal that value. -/
theorem claim_C4 :
    (∀ (s : MetricsState) (sl : List ℚ),
      s.latency_history ≠ [] →
      sl.Perm (s.latency_history.map fun e => e.latency) →
      sl.Sorted (· ≤ ·) →
      (get_summary s).p95_latency =
        sl.getD (min (sl.length * 95 / 100) (sl.length - 1)) 0 ∧
      (get_summary s).p99_latency =
        sl.getD (min (sl.length * 99 / 100) (sl.length - 1)) 0) ∧
    ((get_summary { initState with latency_history :=
        ((List.range 100).map (fun i =>
          { latency := ((i + 1 : ℕ) : ℚ), success := true })) }).p95_latency = 96 ∧
     (get_summary { initState with latency_history :=
        ((List.range 100).map (fun i =>
          { latency := ((i + 1 : ℕ) : ℚ), success := true })) }).p99_latency = 100) ∧
    (∀ x : ℚ, percentiles [x] = (x, x)) := by
  refine ⟨?_, by decide, fun x => ?_⟩
  case refine_2 =>
    simp [percentiles, List.insertionSort, List.orderedInsert]
  intro s sl hne hperm hsort
  have hmapne : s.latency_history.map (fun e => e.latency) ≠ [] := by
    simp [List.map_eq_nil_iff, hne]
  have hp := percentiles_eq _ sl hmapne hperm hsort
  have hpos : 0 < sl.length := by
    have := hperm.length_eq
    rw [List.length_map] at this
    have := List.length_pos.mpr hne
    omega
  have m95 : min (sl.length * 95 / 100) (sl.length - 1) = sl.length * 95 / 100 := by
    omega
  have m99 : min (sl.length * 99 / 100) (sl.length - 1) = sl.length * 99 / 100 := by
    omega
  rw [m95, m99]
  constructor
  · show (percentiles (s.latency_history.map fun e => e.latency)).1 = _
    rw [hp]
  · show (percentiles (s.latency_history.map fun e => e.latency)).2 = _
    rw [hp]

/-- Witness for C4 at a single-entry history. -/
theorem claim_C4_witness :
    (get_summary { initState with latency_history :=
      [{ latency := (7 : ℚ), success := true }] }).p95_latency = 7 := by
  have h := (claim_C4.1
    { initState with latency_history := [{ latency := (7 : ℚ), success := true }] }
    [7] (by decide) (by decide) (by decide)).1
  rw [h]
  decide

/-! ### C8: consistency of repeated queries (corrected) -/

theorem check_consistency_cc (s : MetricsState) (q r : String) :
    (check_consistency s q r).consistency_checks =
      trimTo 30 (s.consistency_checks ++
        [{ query := pyTake 200 q, response := pyTake 200 r,
           similar_previous := s.consistency_checks.countP fun check =>
             decide ((7 : ℚ)/10 < similarity (pyLower q) (pyLower check.query)) }]) :=
  rfl

theorem pyTake_of_le (n : ℕ) (s : String) (h : s.data.length ≤ n) :
    pyTake n s = s := by
  show String.mk (s.data.take n) = s
  rw [List.take_of_length_le h]

theorem similarity_self (q : String) (h : pyWords q ≠ ∅) :
    similarity q q = 1 := by
  simp only [similarity]
  rw [if_neg (by simp [h]), Finset.inter_self, Finset.union_self]
  have hpos : 0 < (pyWords q).card :=
    Finset.card_pos.mpr (Finset.nonempty_iff_ne_empty.mpr h)
  rw [if_pos hpos]
  exact div_self (Nat.cast_ne_zero.mpr hpos.ne')

/-- Counterexample to C8 as stated: for the query `""` (empty word set,
so `_similarity` returns 0.0 for it against anything), two successive
`check_consistency` calls record entries whose `similar_previous` is 0:
no recorded entry ever reaches `similar_previous ≥ 1`. -/
theorem claim_C8_cex :
    ¬ ∃ e ∈ (check_consistency (check_consistency initState "" "a") "" "b").consistency_checks,
      1 ≤ e.similar_previous := by
  have hsim : similarity (pyLower "") (pyLower "") = 0 := rfl
  have hP : ¬ ((7 : ℚ)/10 < similarity (pyLower "") (pyLower "")) := by
    rw [hsim]; norm_num
  have hpred : (decide ((7 : ℚ)/10 < similarity (pyLower "") (pyLower ""))) = false :=
    decide_eq_false hP
  rw [show check_consistency initState "" "a" =
    { initState with consistency_checks :=
        [{ query := "", response := "a", similar_previous := 0 }] } from rfl]
  rw [check_consistency_cc]
  simp [List.countP_cons, hpred, hP, trimTo]

/-- C8 amended: for every query `q` whose lower-cased word set is
non-empty and whose length is at most 200 characters (so truncation
stores it verbatim), after `check_consistency q r1` a second call
`check_consistency q r2` records an entry whose `similar_previous` count
is at least 1.  (As stated the claim fails for queries with an empty
word set — e.g. the empty string — and can also fail for queries longer
than 200 characters, whose stored text is truncated before the
similarity comparison.) -/
theorem claim_C8 (s : MetricsState) (q r1 r2 : String)
    (hw : pyWords (pyLower q) ≠ ∅) (hlen : q.data.length ≤ 200) :
    ∃ e : ConsistencyEntry,
      (check_consistency (check_consistency s q r1) q r2).consistency_checks.getLast? =
        some e ∧
      1 ≤ e.similar_previous := by
  have htake : pyTake 200 q = q := pyTake_of_le 200 q hlen
  have hmem : ({ query := pyTake 200 q, response := pyTake 200 r1,
                 similar_previous := s.consistency_checks.countP (fun check =>
                   decide ((7 : ℚ)/10 <
                     similarity (pyLower q) (pyLower check.query))) } :
      ConsistencyEntry) ∈ (check_consistency s q r1).consistency_checks := by
    rw [check_consistency_cc]
    exact mem_trimTo_concat 30 (by omega) _ _
  have hpred : (fun check : ConsistencyEntry =>
      decide ((7 : ℚ)/10 < similarity (pyLower q) (pyLower check.query)))
      ({ query := pyTake 200 q, response := pyTake 200 r1,
         similar_previous := s.consistency_checks.countP (fun check =>
           decide ((7 : ℚ)/10 <
             similarity (pyLower q) (pyLower check.query))) } :
        ConsistencyEntry) = true := by
    show decide ((7 : ℚ)/10 < similarity (pyLower q) (pyLower (pyTake 200 q))) = true
    rw [htake]
    exact decide_eq_true (by rw [similarity_self (pyLower q) hw]; norm_num)
  have hcount : 1 ≤ (check_consistency s q r1).consistency_checks.countP
      (fun check =>
        decide ((7 : ℚ)/10 < similarity (pyLower q) (pyLower check.query))) :=
    List.countP_pos_iff.mpr ⟨_, hmem, hpred⟩
  refine ⟨{ query := pyTake 200 q, response := pyTake 200 r2,
            similar_previous :=
              (check_consistency s q r1).consistency_checks.countP (fun check =>
                decide ((7 : ℚ)/10 <
                  similarity (pyLower q) (pyLower check.query))) },
    ?_, hcount⟩
  rw [check_consistency_cc]
  exact trimTo_concat_getLast? 30 (by omega) _ _

/-- Witness for C8 at a concrete query. -/
theorem claim_C8_witness :
    ∃ e : ConsistencyEntry,
      (check_consistency (check_consistency initState "hola" "x") "hola" "y").consistency_checks.getLast? =
        some e ∧
      1 ≤ e.similar_previous :=
  claim_C8 initState "hola" "x" "y" (by decide) (by decide)

/-! ### C3: rate-limiter remaining counts (code bug) -/

/-- C3 describes a code bug: the claim (and the spec's formula
`maxRequests - filteredCountBeforeAppend - 1`) expects the 20 in-window
calls to return `remaining = 19, 18, ..., 0`, but because
`rate_limit_storage[ip]` and `recent_requests` alias the same list
object, `len(recent_requests)` is read after `now` is appended and the
code returns `remaining = 18, 17, ..., 0, -1` (a negative remaining
count on the 20th allowed call).  The other parts of the claim hold: the
21st in-window call returns `(False, 0)` and a call after the window has
elapsed is allowed again.  This theorem evaluates the model at the
failing input. -/
theorem claim_C3_divergence :
    (run_rate_limit [] (List.replicate 20 0)).1 =
      [(true, 18), (true, 17), (true, 16), (true, 15), (true, 14), (true, 13),
       (true, 12), (true, 11), (true, 10), (true, 9), (true, 8), (true, 7),
       (true, 6), (true, 5), (true, 4), (true, 3), (true, 2), (true, 1),
       (true, 0), (true, -1)] ∧
    (check_rate_limit (run_rate_limit [] (List.replicate 20 0)).2 0 20 60).allowed
      = false ∧
    (check_rate_limit (run_rate_limit [] (List.replicate 20 0)).2 0 20 60).remaining
      = 0 ∧
    (check_rate_limit (run_rate_limit [] (List.replicate 20 0)).2 61 20 60).allowed
      = true := by
  decide

/-! ### C10: rate-limiter storage bounds -/

theorem check_rate_limit_length (stored : List ℤ) (now : ℤ)
    (h : stored.length ≤ 20) :
    (check_rate_limit stored now 20 60).stored.length ≤ 20 := by
  simp only [check_rate_limit]
  split
  · exact (List.length_filter_le _ _).trans h
  · rename_i hlt
    rw [List.length_append]
    simp only [List.length_singleton]
    omega

theorem run_rate_limit_length (calls : List ℤ) : ∀ stored : List ℤ,
    stored.length ≤ 20 → (run_rate_limit stored calls).2.length ≤ 20 := by
  induction calls with
  | nil => intro stored h; exact h
  | cons t ts ih =>
    intro stored h
    exact ih _ (check_rate_limit_length stored t h)

/-- C10: with `max_requests = 20`, the stored timestamp list of a client
never exceeds 20 entries over any call sequence, and a rejected call
appends no timestamp: it only removes the entries older than the window
(the new stored list is the in-window filter of the old one, a sublist
of it). -/
theorem claim_C10 :
    (∀ calls : List ℤ, (run_rate_limit [] calls).2.length ≤ 20) ∧
    (∀ (stored : List ℤ) (now : ℤ),
      (check_rate_limit stored now 20 60).allowed = false →
      (check_rate_limit stored now 20 60).stored =
        stored.filter (fun ts => decide (now - 60 < ts)) ∧
      (check_rate_limit stored now 20 60).stored.Sublist stored) := by
  constructor
  · intro calls
    exact run_rate_limit_length calls [] (by simp)
  · intro stored now h
    have hc : 20 ≤ (stored.filter fun ts => decide (now - 60 < ts)).length := by
      by_contra hc
      simp only [check_rate_limit] at h
      rw [if_neg hc] at h
      simp at h
    have hst : (check_rate_limit stored now 20 60).stored =
        stored.filter fun ts => decide (now - 60 < ts) := by
      simp only [check_rate_limit]
      rw [if_pos hc]
    exact ⟨hst, by rw [hst]; exact List.filter_sublist stored⟩

/-- Witness for C10: a full window of 20 stored timestamps rejects the
next call and leaves exactly the filtered list in storage. -/
theorem claim_C10_witness :
    (check_rate_limit (List.replicate 20 (0 : ℤ)) 0 20 60).stored =
      (List.replicate 20 (0 : ℤ)).filter (fun ts => decide ((0 : ℤ) - 60 < ts)) :=
  (claim_C10.2 (List.replicate 20 0) 0 (by decide)).1

end Grozy
